import Mathlib

/-!
Shallow embedding of the transaction-monitoring engine of
`ArbitkaWalletTracker` (`src/bot.js`), and theorems checking its
specification claims.

Modelling conventions:
* Signatures, addresses and directions are `String`s, as in the source.
* Lamport balances are `Int` (JS numbers used as integers by the code).
* SOL-denominated filter thresholds are `ℚ`; `shouldNotify` divides the
  lamport amount by `1e9` exactly as `src/bot.js:682` does.  The
  environment-variable strings (`MINIMUM_SOL_THRESHOLD`, line 16) are
  modelled as their numeric coercions, gathered in a `Config` record that
  plays the role of the module-level constants of lines 14-17.
* The network calls (`getSignaturesForAddress`, `getParsedTransaction`)
  are passed in as `Except String _` oracles: `.error e` is a thrown
  exception with message `e`, caught by the source's `try/catch` blocks.
-/

namespace ArbitkaWalletTracker

/-- The module-level configuration constants of `src/bot.js:14-17`.
`MINIMUM_SOL_THRESHOLD` is the numeric value of the env string used by
`shouldNotify`; `DUST_THRESHOLD` is kept as the raw optional env string
(line 17) — the analyzer never reads it. -/
structure Config where
  MINIMUM_SOL_THRESHOLD : ℚ
  DUST_THRESHOLD : Option String
deriving DecidableEq

/-- A stored wallet watch record (`src/bot.js:323-331`): `minAmount` /
`maxAmount` are `none` when unset (`null`); `some 0` is falsy in JS and
is skipped by the filter exactly like `null`. -/
structure Wallet where
  name : String
  address : String
  minAmount : Option ℚ
  maxAmount : Option ℚ
  direction : String
  active : Bool
  created : String
deriving DecidableEq

/-- A parsed transaction record as consumed by `analyzeSolTransaction`
(`src/bot.js:638-641`): the account keys are the pubkey strings. -/
structure ParsedTransaction where
  preBalances : List Int
  postBalances : List Int
  accountKeys : List String
  signatures : List String
  blockTime : Int
deriving DecidableEq

/-- The normalized transfer event built at `src/bot.js:672-678`. -/
structure SolTransfer where
  signature : String
  amount : Int
  direction : String
  timestamp : Int
  receiver_sender : Option String
deriving DecidableEq

/-- JS truthiness of an optional numeric field (`wallet.minAmount &&`,
`wallet.maxAmount &&` at `src/bot.js:691,697`): `null`/absent and `0`
are falsy. -/
def qTruthy : Option ℚ → Bool
  | none => false
  | some q => q != 0

/-- Balance delta of account `i` in a transaction:
`postBalances[i] - preBalances[i]` (`src/bot.js:655,660`). -/
def txDelta (tx : ParsedTransaction) (i : Nat) : Int :=
  tx.postBalances.getD i 0 - tx.preBalances.getD i 0

/-- A `for (let i = ...; i < bound; i++) { if (p i) break-with i }` scan,
the loop shape used twice in `analyzeSolTransaction`
(`src/bot.js:646-651` and `658-670`).  `findFrom p i fuel` scans the
indices `i, i+1, ..., i+fuel-1` in order and returns the first one
satisfying `p`. -/
def findFrom (p : Nat → Bool) : Nat → Nat → Option Nat
  | _, 0 => none
  | i, fuel + 1 => if p i then some i else findFrom p (i + 1) fuel

/-- Index of the watched wallet among the account keys
(`src/bot.js:645-651`); `none` models `walletIndex === -1`. -/
def walletIndexOf (tx : ParsedTransaction) (walletAddress : String) : Option Nat :=
  findFrom (fun i => tx.accountKeys.getD i "" == walletAddress) 0 tx.accountKeys.length

/-- The counterparty-search loop condition (`src/bot.js:662-668`):
`bc` is the watched account's balance change. -/
def counterpartyCond (tx : ParsedTransaction) (widx : Nat) (bc : Int) (i : Nat) : Bool :=
  decide (i ≠ widx ∧
    ((0 < bc ∧ txDelta tx i < 0) ∨
     (bc < 0 ∧ 0 < txDelta tx i ∧ txDelta tx i + bc < 1000000)))

/-- The counterparty search of `src/bot.js:658-670`: first index (in
increasing order) satisfying `counterpartyCond`, mapped to its pubkey;
`none` models `receiver_sender` staying `undefined`. -/
def findCounterparty (tx : ParsedTransaction) (widx : Nat) (bc : Int) : Option String :=
  (findFrom (counterpartyCond tx widx bc) 0 tx.accountKeys.length).map
    (fun i => tx.accountKeys.getD i "")

/-- Embedding of `analyzeSolTransaction` (`src/bot.js:638-679`).  The `cfg` argument
stands for the module-level constants in scope at that point; note the
body compares `|balanceChange|` against the literal `1000`
(`src/bot.js:656`), not against `cfg.DUST_THRESHOLD`. -/
def analyzeSolTransaction (_cfg : Config) (transaction : ParsedTransaction)
    (walletAddress : String) : Option SolTransfer :=
  match walletIndexOf transaction walletAddress with
  | none => none
  | some walletIndex =>
    let balanceChange := txDelta transaction walletIndex
    if balanceChange.natAbs < 1000 then none
    else
      some { signature := transaction.signatures.getD 0 ""
             amount := |balanceChange|
             direction := if 0 < balanceChange then "incoming" else "outgoing"
             timestamp := transaction.blockTime * 1000
             receiver_sender := findCounterparty transaction walletIndex balanceChange }

/-- Embedding of `shouldNotify` (`src/bot.js:681-710`): the four checks in source
order, each short-circuiting to `false`. -/
def shouldNotify (cfg : Config) (transfer : SolTransfer) (wallet : Wallet) : Bool :=
  let amount : ℚ := (transfer.amount : ℚ) / 1000000000
  if amount < cfg.MINIMUM_SOL_THRESHOLD then false
  else if qTruthy wallet.minAmount ∧ amount < wallet.minAmount.getD 0 then false
  else if qTruthy wallet.maxAmount ∧ wallet.maxAmount.getD 0 < amount then false
  else if wallet.direction ≠ "both" ∧ wallet.direction ≠ transfer.direction then false
  else true

/-- One step of the collection loop of `src/bot.js:595-598`: walk the
recent-signature window newest-first, stopping (exclusively) at the
stored cursor signature; if the cursor never appears, the whole window
is collected. -/
def collectUntil (last : String) : List String → List String
  | [] => []
  | s :: rest => if s = last then [] else s :: collectUntil last rest

/-- Embedding of `processTransaction` (`src/bot.js:621-636`) for one signature:
returns the notification emitted (if any) and the error message logged
by its own `catch` (if any).  `fetchTx` is `getParsedTransaction`;
`.ok none` covers both a `null` transaction and missing `meta`. -/
def processTransaction (cfg : Config) (wallet : Wallet)
    (fetchTx : String → Except String (Option ParsedTransaction)) (sig : String) :
    Option SolTransfer × Option String :=
  match fetchTx sig with
  | .error e => (none, some e)
  | .ok none => (none, none)
  | .ok (some tx) =>
    match analyzeSolTransaction cfg tx wallet.address with
    | none => (none, none)
    | some transfer =>
      if shouldNotify cfg transfer wallet then (some transfer, none) else (none, none)

/-- Observable outcome of one `checkWalletTransactions` call for one
watch: the cursor value after the call (the `lastCheckedSignatures`
entry), the signatures whose details were fetched in processing order,
the notifications emitted in order, and the error messages logged. -/
structure CheckResult where
  newCursor : Option String
  processed : List String
  notified : List SolTransfer
  errors : List String
deriving DecidableEq

/-- Embedding of `checkWalletTransactions` (`src/bot.js:564-619`).  `cursor` is the
`lastCheckedSignatures` entry for this watch before the call;
`fetchSigs1` / `fetchRecent` are the `getSignaturesForAddress` calls
with limits 1 and 5 (`.error` = thrown, landing in the `catch` at line
611, which logs and leaves the cursor untouched).  Per-transaction
errors are swallowed inside `processTransaction`, so the final cursor
write at line 609 still runs after them. -/
def checkWalletTransactions (cfg : Config) (wallet : Wallet) (cursor : Option String)
    (fetchSigs1 fetchRecent : Except String (List String))
    (fetchTx : String → Except String (Option ParsedTransaction)) : CheckResult :=
  match fetchSigs1 with
  | .error e => ⟨cursor, [], [], [e]⟩
  | .ok [] => ⟨cursor, [], [], []⟩
  | .ok (latestSignature :: _) =>
    match cursor with
    | none => ⟨some latestSignature, [], [], []⟩
    | some lastSignature =>
      if latestSignature = lastSignature then ⟨cursor, [], [], []⟩
      else
        match fetchRecent with
        | .error e => ⟨cursor, [], [], [e]⟩
        | .ok recentSignatures =>
          let newSignatures := collectUntil lastSignature recentSignatures
          let results := newSignatures.reverse.map (processTransaction cfg wallet fetchTx)
          ⟨some latestSignature, newSignatures.reverse,
           results.filterMap Prod.fst, results.filterMap Prod.snd⟩

/-- Start time of the scheduler's `k`-th tick under
`setInterval(checkTransactions, interval)` (`src/bot.js:747`): the
callback fires at `(k+1) * interval` milliseconds, unconditionally —
the source keeps no in-flight flag and `setInterval` does not await the
previous (async) invocation. -/
def tickStart (interval k : Nat) : Nat :=
  (k + 1) * interval

/-- Whether the pass started by tick `k` is still in flight at time `t`,
when each pass takes `duration` milliseconds of processing. -/
def passInFlight (interval duration t k : Nat) : Bool :=
  decide (tickStart interval k ≤ t) && decide (t < tickStart interval k + duration)

/-- Number of concurrent `checkTransactions` passes in flight at time
`t` under the source's unguarded `setInterval` wiring
(`src/bot.js:742-751`), when every pass takes `duration` ms. -/
def inFlightCount (interval duration t : Nat) : Nat :=
  ((List.range (t / interval + 1)).filter (passInFlight interval duration t)).length

/-! ### Concrete example data used by witnesses and counterexamples -/

/-- A configuration with floor `0` and no dust env string. -/
def cfg0 : Config := ⟨0, none⟩

/-- A watch with no per-watch filters, direction `both`. -/
def wallet0 : Wallet := ⟨"w", "W", none, none, "both", true, "t"⟩

/-- A transaction moving the watched account `W` by `+999` lamports
(below the hardcoded dust cutoff of `src/bot.js:656`). -/
def dustTx999 : ParsedTransaction := ⟨[0], [999], ["W"], ["d1"], 0⟩

/-- A transaction moving the watched account `W` by exactly `+1000`
lamports (the hardcoded dust cutoff of `src/bot.js:656`). -/
def dustTx1000 : ParsedTransaction := ⟨[0], [1000], ["W"], ["d2"], 0⟩

/-- A parsed transaction for signature `s` in which `W` receives 2 SOL
from `X`. -/
def txFor (s : String) : ParsedTransaction :=
  ⟨[0, 5000000000], [2000000000, 3000000000], ["W", "X"], [s], 7⟩

/-- A transaction-detail oracle that resolves every signature to
`txFor`. -/
def ft0 : String → Except String (Option ParsedTransaction) :=
  fun s => Except.ok (some (txFor s))

/-- The transfer event `analyzeSolTransaction` derives from `txFor s`. -/
def trFor (s : String) : SolTransfer :=
  ⟨s, 2000000000, "incoming", 7000, some "X"⟩

/-- A transaction in which the watched account `W` (index 1) gains 2000
lamports and account `A` (index 0) drops. -/
def txW : ParsedTransaction := ⟨[5, 0, 7], [3, 2000, 7], ["A", "W", "B"], ["sigW"], 1⟩

/-- The transfer event derived from `txW` for watched address `W`. -/
def trW : SolTransfer := ⟨"sigW", 2000, "incoming", 1000, some "A"⟩

/-- A rank function on cursor values (used to express monotonicity):
longer signature strings rank higher. -/
def rank0 : Option String → Nat := fun o => (o.getD "").length

/-- A transaction-detail oracle whose every fetch throws. -/
def ftErr : String → Except String (Option ParsedTransaction) :=
  fun _ => Except.error "timeout"

/-- A configuration whose process-wide minimum floor is 1 SOL. -/
def cfg1 : Config := ⟨1, none⟩

/-- A watch with `minAmount = 2` SOL and `maxAmount = 5` SOL. -/
def w3 : Wallet := ⟨"w", "W", some 2, some 5, "both", true, "t"⟩

/-- A watch whose configured `minAmount` (0.1 SOL) is below the
1-SOL floor of `cfg1`. -/
def wLow : Wallet := ⟨"w2", "W", some (1 / 10), none, "both", true, "t"⟩

/-- A transfer of exactly 2 SOL (the `minAmount` of `w3`). -/
def tMin : SolTransfer := ⟨"m", 2000000000, "incoming", 0, none⟩

/-- A transfer of exactly 5 SOL (the `maxAmount` of `w3`). -/
def tMax : SolTransfer := ⟨"x", 5000000000, "incoming", 0, none⟩

/-- A transfer one lamport above the `maxAmount` of `w3`. -/
def tAbove : SolTransfer := ⟨"a", 5000000001, "incoming", 0, none⟩

/-- A transfer of 0.5 SOL, below the 1-SOL floor of `cfg1` though above
the 0.1-SOL `minAmount` of `wLow`. -/
def tLow : SolTransfer := ⟨"l", 500000000, "incoming", 0, none⟩

/-! ### Helper lemmas about the loop shapes -/

theorem findFrom_eq_none_of (p : Nat → Bool) (fuel : Nat) :
    ∀ i : Nat, (∀ j, i ≤ j → j < i + fuel → p j = false) → findFrom p i fuel = none := by
  induction fuel with
  | zero => intro i _; rfl
  | succ fuel ih =>
    intro i h
    have hpi : p i = false := h i (Nat.le_refl i) (by omega)
    rw [findFrom, hpi]
    simp only [Bool.false_eq_true, if_false]
    exact ih (i + 1) (fun j hj1 hj2 => h j (by omega) (by omega))

theorem findFrom_eq_some_of (p : Nat → Bool) (fuel : Nat) :
    ∀ i k : Nat, i ≤ k → k < i + fuel → p k = true →
      (∀ j, i ≤ j → j < k → p j = false) → findFrom p i fuel = some k := by
  induction fuel with
  | zero => intro i k h1 h2; omega
  | succ fuel ih =>
    intro i k h1 h2 hp hmin
    rw [findFrom]
    rcases Nat.eq_or_lt_of_le h1 with heq | hlt
    · subst heq; rw [hp]; rfl
    · have hpi : p i = false := hmin i (Nat.le_refl i) hlt
      rw [hpi]
      simp only [Bool.false_eq_true, if_false]
      exact ih (i + 1) k hlt (by omega) hp (fun j hj1 hj2 => hmin j (by omega) hj2)

theorem collectUntil_of_not_mem (last : String) :
    ∀ l : List String, last ∉ l → collectUntil last l = l := by
  intro l
  induction l with
  | nil => intro _; rfl
  | cons s rest ih =>
    intro h
    have hne : ¬ s = last := by
      intro heq; exact h (heq ▸ List.mem_cons_self s rest)
    rw [collectUntil, if_neg hne, ih (fun hm => h (List.mem_cons_of_mem s hm))]

theorem processTransaction_ft0 (s : String) :
    processTransaction cfg0 wallet0 ft0 s = (some (trFor s), none) := by
  have hana : analyzeSolTransaction cfg0 (txFor s) wallet0.address = some (trFor s) := rfl
  have hnotif : shouldNotify cfg0 (trFor s) wallet0 = true := by
    norm_num [shouldNotify, cfg0, wallet0, trFor, qTruthy]
  simp [processTransaction, ft0, hana, hnotif]

/-! ### Claim theorems -/

/-- Claim C5: a watch polled for the first time (no stored cursor) whose
address has at least one signature gets its cursor seeded to the current
latest signature, and zero notifications are emitted that round,
regardless of the watch's transaction history (any recent-signature
window, any transaction details). -/
theorem coldStart_seeds_cursor_emits_nothing (cfg : Config) (wallet : Wallet)
    (latest : String) (rest : List String)
    (fetchRecent : Except String (List String))
    (fetchTx : String → Except String (Option ParsedTransaction)) :
    checkWalletTransactions cfg wallet none (Except.ok (latest :: rest)) fetchRecent fetchTx =
      ⟨some latest, [], [], []⟩ :=
  rfl

/-- Claim C8: when the fetched latest signature equals the stored
cursor, the tick is a no-op for that watch: no transaction details are
fetched (`processed = []`), no notification is emitted
(`notified = []`), and the cursor is unchanged — independently of the
recent-window and transaction-detail oracles, which are never
consulted. -/
theorem unchanged_latest_is_noop (cfg : Config) (wallet : Wallet)
    (c : String) (rest : List String)
    (fetchRecent : Except String (List String))
    (fetchTx : String → Except String (Option ParsedTransaction)) :
    checkWalletTransactions cfg wallet (some c) (Except.ok (c :: rest)) fetchRecent fetchTx =
      ⟨some c, [], [], []⟩ := by
  simp [checkWalletTransactions]

/-- Claim C2 (code bug): the scheduler is wired as
`setInterval(checkTransactions, 15000)` with no in-flight guard
(`src/bot.js:742-751`), so when one pass takes longer than the interval
a second concurrent pass starts: with the 15000 ms interval and a pass
duration of 20000 ms, two passes are simultaneously in flight at
t = 30000 ms, contradicting the claimed single in-flight pass. -/
theorem scheduler_overlapping_passes : inFlightCount 15000 20000 30000 = 2 := by
  decide

/-- Claim C10: the analyzer's output does not depend on the
`DUST_THRESHOLD` configuration (nor on any other configuration value):
any two configurations yield identical analyzer results, because the
dust cutoff applied at `src/bot.js:656` is the fixed literal `1000`
lamports — a `999`-lamport delta is dropped and a `1000`-lamport delta
is kept under every configuration. -/
theorem analyzer_independent_of_dust_config :
    (∀ (cfg₁ cfg₂ : Config) (tx : ParsedTransaction) (addr : String),
        analyzeSolTransaction cfg₁ tx addr = analyzeSolTransaction cfg₂ tx addr) ∧
    (∀ cfg : Config, analyzeSolTransaction cfg dustTx999 "W" = none) ∧
    (∀ cfg : Config, (analyzeSolTransaction cfg dustTx1000 "W").isSome = true) :=
  ⟨fun _ _ _ _ => rfl, fun _ => rfl, fun _ => rfl⟩

/-- Claim C9: every write of a watch's cursor sets it to the signature
fetched as the latest in the current poll (the head of the limit-1
fetch) — the only alternative outcome is that the cursor is left
untouched; consequently, under the environment assumption that the
fetched latest signature never ranks below the stored cursor, the
cursor value never decreases across a tick (never rewound). -/
theorem cursor_writes_only_latest (cfg : Config) (wallet : Wallet) (cursor : Option String)
    (fetchSigs1 fetchRecent : Except String (List String))
    (fetchTx : String → Except String (Option ParsedTransaction)) :
    ((checkWalletTransactions cfg wallet cursor fetchSigs1 fetchRecent fetchTx).newCursor =
        cursor ∨
      ∃ sigs latest, fetchSigs1 = Except.ok sigs ∧ sigs.head? = some latest ∧
        (checkWalletTransactions cfg wallet cursor fetchSigs1 fetchRecent fetchTx).newCursor =
          some latest) ∧
    (∀ rank : Option String → Nat,
      (∀ sigs latest, fetchSigs1 = Except.ok sigs → sigs.head? = some latest →
          rank cursor ≤ rank (some latest)) →
      rank cursor ≤
        rank (checkWalletTransactions cfg wallet cursor fetchSigs1 fetchRecent
          fetchTx).newCursor) := by
  have key : (checkWalletTransactions cfg wallet cursor fetchSigs1 fetchRecent
        fetchTx).newCursor = cursor ∨
      ∃ sigs latest, fetchSigs1 = Except.ok sigs ∧ sigs.head? = some latest ∧
        (checkWalletTransactions cfg wallet cursor fetchSigs1 fetchRecent
          fetchTx).newCursor = some latest := by
    rcases fetchSigs1 with e | sigs
    · left; rfl
    · rcases sigs with _ | ⟨latest, rest⟩
      · left; rfl
      · rcases cursor with _ | last
        · right; exact ⟨latest :: rest, latest, rfl, rfl, rfl⟩
        · by_cases hlat : latest = last
          · subst hlat; left; simp [checkWalletTransactions]
          · rcases fetchRecent with e | recent
            · left; simp [checkWalletTransactions, hlat]
            · right
              exact ⟨latest :: rest, latest, rfl, rfl, by simp [checkWalletTransactions, hlat]⟩
  refine ⟨key, fun rank hrank => ?_⟩
  rcases key with h | ⟨sigs, latest, h1, h2, h3⟩
  · rw [h]
  · rw [h3]; exact hrank sigs latest h1 h2

/-- Witness for `cursor_writes_only_latest` at a concrete input: cursor
`"A"`, fetched latest `"BB"`, with the length-based rank. -/
theorem cursor_writes_only_latest_witness :
    rank0 (some "A") ≤
      rank0 ((checkWalletTransactions cfg0 wallet0 (some "A") (Except.ok ["BB"])
        (Except.ok ["BB", "A"]) (fun _ => Except.ok none)).newCursor) := by
  apply (cursor_writes_only_latest cfg0 wallet0 (some "A") (Except.ok ["BB"])
    (Except.ok ["BB", "A"]) (fun _ => Except.ok none)).2 rank0
  intro sigs latest h1 h2
  injection h1 with h1'
  subst h1'
  simp only [List.head?] at h2
  injection h2 with h2'
  subst h2'
  decide

/-- Claim C4: with stored cursor `s0` and new signatures `s1` (oldest),
`s2`, `s3` (newest) in the window, the collected list is reversed to
oldest-first, so processing order is `[s1, s2, s3]`, notifications are
emitted following that order, and when all three produce a notification
the emitted sequence is exactly `[t1, t2, t3]` in chronological order. -/
theorem chronological_delivery (cfg : Config) (w : Wallet)
    (s0 s1 s2 s3 : String) (r1 rest : List String)
    (ft : String → Except String (Option ParsedTransaction))
    (h3 : s3 ≠ s0) (h2 : s2 ≠ s0) (h1 : s1 ≠ s0) :
    (checkWalletTransactions cfg w (some s0) (Except.ok (s3 :: r1))
        (Except.ok (s3 :: s2 :: s1 :: s0 :: rest)) ft).processed = [s1, s2, s3] ∧
    (checkWalletTransactions cfg w (some s0) (Except.ok (s3 :: r1))
        (Except.ok (s3 :: s2 :: s1 :: s0 :: rest)) ft).notified =
      [s1, s2, s3].filterMap (fun s => (processTransaction cfg w ft s).1) ∧
    (∀ t1 t2 t3 : SolTransfer,
      (processTransaction cfg w ft s1).1 = some t1 →
      (processTransaction cfg w ft s2).1 = some t2 →
      (processTransaction cfg w ft s3).1 = some t3 →
      (checkWalletTransactions cfg w (some s0) (Except.ok (s3 :: r1))
        (Except.ok (s3 :: s2 :: s1 :: s0 :: rest)) ft).notified = [t1, t2, t3]) := by
  have hcol : collectUntil s0 (s3 :: s2 :: s1 :: s0 :: rest) = [s3, s2, s1] := by
    rw [collectUntil, if_neg h3, collectUntil, if_neg h2, collectUntil, if_neg h1,
      collectUntil, if_pos rfl]
  have hproc : (checkWalletTransactions cfg w (some s0) (Except.ok (s3 :: r1))
      (Except.ok (s3 :: s2 :: s1 :: s0 :: rest)) ft).processed = [s1, s2, s3] := by
    simp [checkWalletTransactions, h3, hcol]
  have hnot : (checkWalletTransactions cfg w (some s0) (Except.ok (s3 :: r1))
      (Except.ok (s3 :: s2 :: s1 :: s0 :: rest)) ft).notified =
      [s1, s2, s3].filterMap (fun s => (processTransaction cfg w ft s).1) := by
    simp only [checkWalletTransactions, hcol, if_neg h3]
    exact List.filterMap_map _ _ _
  refine ⟨hproc, hnot, fun t1 t2 t3 ht1 ht2 ht3 => ?_⟩
  rw [hnot]
  simp [List.filterMap_cons, ht1, ht2, ht3]

/-- Witness for `chronological_delivery`: cursor `"s0"`, window
`["s3","s2","s1","s0"]`, every transaction resolving through `txFor`
and notifying, so the emitted sequence is `[trFor "s1", trFor "s2",
trFor "s3"]`. -/
theorem chronological_delivery_witness :
    (checkWalletTransactions cfg0 wallet0 (some "s0") (Except.ok ["s3"])
        (Except.ok ["s3", "s2", "s1", "s0"]) ft0).notified =
      [trFor "s1", trFor "s2", trFor "s3"] :=
  (chronological_delivery cfg0 wallet0 "s0" "s1" "s2" "s3" [] [] ft0
      (by decide) (by decide) (by decide)).2.2
    (trFor "s1") (trFor "s2") (trFor "s3")
    (by rw [processTransaction_ft0]) (by rw [processTransaction_ft0])
    (by rw [processTransaction_ft0])

/-- Claim C6: when the stored cursor is not found in the lookback
window, no error is raised (no fetch threw, and if each collected
transaction processes cleanly the error log stays empty), exactly the
window's signatures are processed — no backfill beyond it — and the
cursor still advances to the newest fetched signature. -/
theorem gap_processes_window_and_advances (cfg : Config) (w : Wallet)
    (c latest : String) (r1 recent : List String)
    (ft : String → Except String (Option ParsedTransaction))
    (hne : latest ≠ c) (hgap : c ∉ recent) :
    (checkWalletTransactions cfg w (some c) (Except.ok (latest :: r1))
        (Except.ok recent) ft).newCursor = some latest ∧
    (checkWalletTransactions cfg w (some c) (Except.ok (latest :: r1))
        (Except.ok recent) ft).processed = recent.reverse ∧
    ((∀ s, (processTransaction cfg w ft s).2 = none) →
      (checkWalletTransactions cfg w (some c) (Except.ok (latest :: r1))
        (Except.ok recent) ft).errors = []) := by
  have hcol : collectUntil c recent = recent := collectUntil_of_not_mem c recent hgap
  refine ⟨by simp [checkWalletTransactions, hne, hcol],
    by simp [checkWalletTransactions, hne, hcol], fun hclean => ?_⟩
  have herr : (checkWalletTransactions cfg w (some c) (Except.ok (latest :: r1))
      (Except.ok recent) ft).errors =
      recent.reverse.filterMap (fun s => (processTransaction cfg w ft s).2) := by
    simp only [checkWalletTransactions, hcol, if_neg hne]
    exact List.filterMap_map _ _ _
  rw [herr, List.filterMap_eq_nil_iff]
  exact fun s _ => hclean s

/-- Witness for `gap_processes_window_and_advances`: cursor `"OLD"`
absent from the window `["E","D"]`; every transaction resolves to
`none`, so the whole window is processed, no error is logged, and the
cursor advances to `"E"`. -/
theorem gap_processes_window_and_advances_witness :
    (checkWalletTransactions cfg0 wallet0 (some "OLD") (Except.ok ["E"])
        (Except.ok ["E", "D"]) (fun _ => Except.ok none)).newCursor = some "E" ∧
    (checkWalletTransactions cfg0 wallet0 (some "OLD") (Except.ok ["E"])
        (Except.ok ["E", "D"]) (fun _ => Except.ok none)).processed = ["D", "E"] ∧
    (checkWalletTransactions cfg0 wallet0 (some "OLD") (Except.ok ["E"])
        (Except.ok ["E", "D"]) (fun _ => Except.ok none)).errors = [] := by
  obtain ⟨hc, hp, he⟩ := gap_processes_window_and_advances cfg0 wallet0 "OLD" "E" []
    ["E", "D"] (fun _ => Except.ok none) (by decide) (by decide)
  exact ⟨hc, hp, he (fun s => rfl)⟩

/-- Claim C1 counterexample: when the recent-window signature fetch
throws (e.g. a 429 rate limit), the `catch` at `src/bot.js:611` logs
the error but skips the cursor write at line 609, so the cursor stays
at `"A"` instead of advancing to the fetched latest signature `"B"` —
refuting the claim that a transient fetch error still ends with the
cursor advanced to the latest fetched signature. -/
theorem fetch_error_cursor_not_advanced :
    checkWalletTransactions cfg0 wallet0 (some "A") (Except.ok ["B"])
        (Except.error "429 Too Many Requests") (fun _ => Except.ok none) =
      ⟨some "A", [], [], ["429 Too Many Requests"]⟩ ∧
    (some "A" : Option String) ≠ some "B" := by
  decide

/-- Claim C1 (amended): when both signature fetches succeed and there is
new data, the cursor advances to the fetched latest signature once per
watch per tick, even if some (or all) individual transaction fetches
fail — and every per-transaction error message is logged; when the
recent-window signature fetch itself throws, the error is logged and
the cursor is left unchanged (the watch retries fresh next tick). -/
theorem txFailure_still_advances_cursor (cfg : Config) (w : Wallet)
    (c latest : String) (r1 recent : List String)
    (ft : String → Except String (Option ParsedTransaction))
    (hne : latest ≠ c) :
    (checkWalletTransactions cfg w (some c) (Except.ok (latest :: r1))
        (Except.ok recent) ft).newCursor = some latest ∧
    (∀ s e, s ∈ (checkWalletTransactions cfg w (some c) (Except.ok (latest :: r1))
          (Except.ok recent) ft).processed →
      (processTransaction cfg w ft s).2 = some e →
      e ∈ (checkWalletTransactions cfg w (some c) (Except.ok (latest :: r1))
          (Except.ok recent) ft).errors) ∧
    (∀ e, checkWalletTransactions cfg w (some c) (Except.ok (latest :: r1))
        (Except.error e) ft = ⟨some c, [], [], [e]⟩) := by
  have hproc : (checkWalletTransactions cfg w (some c) (Except.ok (latest :: r1))
      (Except.ok recent) ft).processed = (collectUntil c recent).reverse := by
    simp [checkWalletTransactions, hne]
  have herr : (checkWalletTransactions cfg w (some c) (Except.ok (latest :: r1))
      (Except.ok recent) ft).errors =
      (collectUntil c recent).reverse.filterMap
        (fun s => (processTransaction cfg w ft s).2) := by
    simp only [checkWalletTransactions, if_neg hne]
    exact List.filterMap_map _ _ _
  refine ⟨by simp [checkWalletTransactions, hne], fun s e hs hse => ?_,
    fun e => by simp [checkWalletTransactions, hne]⟩
  rw [herr]
  exact List.mem_filterMap.2 ⟨s, by rwa [hproc] at hs, hse⟩

/-- Witness for `txFailure_still_advances_cursor`: cursor `"A"`, window
`["B","C","A"]`, every transaction fetch throwing `"timeout"`: the
cursor still advances to `"B"` and the error is logged. -/
theorem txFailure_still_advances_cursor_witness :
    (checkWalletTransactions cfg0 wallet0 (some "A") (Except.ok ["B"])
        (Except.ok ["B", "C", "A"]) ftErr).newCursor = some "B" ∧
    "timeout" ∈ (checkWalletTransactions cfg0 wallet0 (some "A") (Except.ok ["B"])
        (Except.ok ["B", "C", "A"]) ftErr).errors := by
  obtain ⟨h1, h2, _⟩ := txFailure_still_advances_cursor cfg0 wallet0 "A" "B" []
    ["B", "C", "A"] ftErr (by decide)
  exact ⟨h1, h2 "C" "timeout" (by decide) rfl⟩

/-- Claim C3: with the watch's `minAmount = mn` and `maxAmount = mx`
both set and consistent with the process-wide floor, a transfer of
exactly `mn` passes, a transfer of exactly `mx` passes, any transfer
above `mx` (in particular one lamport above) is suppressed, and a
transfer below the process-wide floor is suppressed for every watch,
regardless of its configured `minAmount`. -/
theorem filter_boundaries (cfg : Config) (w : Wallet) (mn mx : ℚ)
    (hmin : w.minAmount = some mn) (hmax : w.maxAmount = some mx)
    (hfloor : 0 < cfg.MINIMUM_SOL_THRESHOLD)
    (hfm : cfg.MINIMUM_SOL_THRESHOLD ≤ mn) (hmm : mn ≤ mx)
    (hdir : w.direction = "both") :
    (∀ t : SolTransfer, (t.amount : ℚ) = mn * 1000000000 →
      shouldNotify cfg t w = true) ∧
    (∀ t : SolTransfer, (t.amount : ℚ) = mx * 1000000000 →
      shouldNotify cfg t w = true) ∧
    (∀ t : SolTransfer, mx * 1000000000 < (t.amount : ℚ) →
      shouldNotify cfg t w = false) ∧
    (∀ (w' : Wallet) (t : SolTransfer),
      (t.amount : ℚ) < cfg.MINIMUM_SOL_THRESHOLD * 1000000000 →
      shouldNotify cfg t w' = false) := by
  have hbig : (0:ℚ) < 1000000000 := by norm_num
  refine ⟨fun t h => ?_, fun t h => ?_, fun t h => ?_, fun w' t h => ?_⟩
  · have ha : (t.amount : ℚ) / 1000000000 = mn := by
      rw [h, mul_div_assoc, div_self (ne_of_gt hbig), mul_one]
    simp only [shouldNotify, ha, hmin, hmax, hdir, Option.getD_some]
    rw [if_neg (not_lt.2 hfm), if_neg (fun hc => absurd hc.2 (lt_irrefl mn)),
      if_neg (fun hc => absurd hc.2 (not_lt.2 hmm)), if_neg (fun hc => hc.1 rfl)]
  · have ha : (t.amount : ℚ) / 1000000000 = mx := by
      rw [h, mul_div_assoc, div_self (ne_of_gt hbig), mul_one]
    simp only [shouldNotify, ha, hmin, hmax, hdir, Option.getD_some]
    rw [if_neg (not_lt.2 (hfm.trans hmm)),
      if_neg (fun hc => absurd hc.2 (not_lt.2 hmm)),
      if_neg (fun hc => absurd hc.2 (lt_irrefl mx)), if_neg (fun hc => hc.1 rfl)]
  · have ha : mx < (t.amount : ℚ) / 1000000000 := (lt_div_iff₀ hbig).2 h
    have hq : qTruthy (some mx) = true := by
      simp only [qTruthy, bne_iff_ne, ne_eq, decide_eq_true_eq]
      exact ne_of_gt (hfloor.trans_le (hfm.trans hmm))
    simp only [shouldNotify, hmin, hmax, hdir, Option.getD_some]
    rw [if_neg (not_lt.2 (((hfm.trans hmm).trans ha.le))),
      if_neg (fun hc => absurd hc.2 (not_lt.2 ((hmm.trans ha.le)))),
      if_pos ⟨hq, ha⟩]
  · have ha : (t.amount : ℚ) / 1000000000 < cfg.MINIMUM_SOL_THRESHOLD :=
      (div_lt_iff₀ hbig).2 h
    simp only [shouldNotify]
    rw [if_pos ha]

/-- Witness for `filter_boundaries` with floor 1 SOL, `minAmount` 2 SOL,
`maxAmount` 5 SOL: 2 SOL passes, 5 SOL passes, 5 SOL + 1 lamport is
suppressed, and 0.5 SOL is suppressed even though `wLow` configures a
0.1 SOL minimum. -/
theorem filter_boundaries_witness :
    shouldNotify cfg1 tMin w3 = true ∧ shouldNotify cfg1 tMax w3 = true ∧
    shouldNotify cfg1 tAbove w3 = false ∧ shouldNotify cfg1 tLow wLow = false := by
  obtain ⟨h1, h2, h3, h4⟩ := filter_boundaries cfg1 w3 2 5 rfl rfl
    (by norm_num [cfg1]) (by norm_num [cfg1]) (by norm_num) rfl
  exact ⟨h1 tMin (by norm_num [tMin]), h2 tMax (by norm_num [tMax]),
    h3 tAbove (by norm_num [tAbove]), h4 wLow tLow (by norm_num [tLow, cfg1])⟩

/-- Claim C7: for an analyzed transaction containing the watched
address, if the watched delta is positive the counterparty is the first
other account whose balance dropped; if negative, the first other
account whose balance rose with `gain + watchedDelta < 1000000` (the
fee tolerance); and if no account matches, the counterparty is left
absent. -/
theorem counterparty_first_match (cfg : Config) (tx : ParsedTransaction)
    (addr : String) (widx : Nat) (tr : SolTransfer)
    (hidx : walletIndexOf tx addr = some widx)
    (hres : analyzeSolTransaction cfg tx addr = some tr) :
    (∀ i, i < tx.accountKeys.length → i ≠ widx →
      0 < txDelta tx widx → txDelta tx i < 0 →
      (∀ j, j < i → j ≠ widx → ¬ txDelta tx j < 0) →
      tr.receiver_sender = some (tx.accountKeys.getD i "")) ∧
    (∀ i, i < tx.accountKeys.length → i ≠ widx →
      txDelta tx widx < 0 → 0 < txDelta tx i →
      txDelta tx i + txDelta tx widx < 1000000 →
      (∀ j, j < i → j ≠ widx →
        ¬ (0 < txDelta tx j ∧ txDelta tx j + txDelta tx widx < 1000000)) →
      tr.receiver_sender = some (tx.accountKeys.getD i "")) ∧
    ((∀ i, i < tx.accountKeys.length → i ≠ widx →
        ¬ ((0 < txDelta tx widx ∧ txDelta tx i < 0) ∨
           (txDelta tx widx < 0 ∧ 0 < txDelta tx i ∧
             txDelta tx i + txDelta tx widx < 1000000))) →
      tr.receiver_sender = none) := by
  simp only [analyzeSolTransaction, hidx] at hres
  split at hres
  · exact absurd hres (by simp)
  · have hrs : tr.receiver_sender = findCounterparty tx widx (txDelta tx widx) := by
      obtain rfl : _ = tr := Option.some.inj hres
      rfl
    refine ⟨fun i hi hiw hpos hdrop hfirst => ?_, fun i hi hiw hneg hgain htol hfirst => ?_,
      fun hnone => ?_⟩
    · have hcond : counterpartyCond tx widx (txDelta tx widx) i = true := by
        simp only [counterpartyCond, decide_eq_true_eq]
        exact ⟨hiw, Or.inl ⟨hpos, hdrop⟩⟩
      have hbefore : ∀ j, 0 ≤ j → j < i →
          counterpartyCond tx widx (txDelta tx widx) j = false := by
        intro j _ hj
        apply decide_eq_false
        rintro ⟨hjw, hc | hc⟩
        · exact hfirst j hj hjw hc.2
        · omega
      have hseek := findFrom_eq_some_of (counterpartyCond tx widx (txDelta tx widx))
        tx.accountKeys.length 0 i (Nat.zero_le i) (by omega) hcond
        (fun j hj1 hj2 => hbefore j hj1 hj2)
      rw [hrs, findCounterparty, hseek, Option.map_some']
    · have hcond : counterpartyCond tx widx (txDelta tx widx) i = true := by
        simp only [counterpartyCond, decide_eq_true_eq]
        exact ⟨hiw, Or.inr ⟨hneg, hgain, htol⟩⟩
      have hbefore : ∀ j, 0 ≤ j → j < i →
          counterpartyCond tx widx (txDelta tx widx) j = false := by
        intro j _ hj
        apply decide_eq_false
        rintro ⟨hjw, hc | hc⟩
        · omega
        · exact hfirst j hj hjw ⟨hc.2.1, hc.2.2⟩
      have hseek := findFrom_eq_some_of (counterpartyCond tx widx (txDelta tx widx))
        tx.accountKeys.length 0 i (Nat.zero_le i) (by omega) hcond
        (fun j hj1 hj2 => hbefore j hj1 hj2)
      rw [hrs, findCounterparty, hseek, Option.map_some']
    · have hall : ∀ j, 0 ≤ j → j < 0 + tx.accountKeys.length →
          counterpartyCond tx widx (txDelta tx widx) j = false := by
        intro j _ hj
        apply decide_eq_false
        rintro ⟨hjw, hc⟩
        exact hnone j (by omega) hjw hc
      have hseek := findFrom_eq_none_of (counterpartyCond tx widx (txDelta tx widx))
        tx.accountKeys.length 0 hall
      rw [hrs, findCounterparty, hseek, Option.map_none']

/-- Witness for `counterparty_first_match`: in `txW` the watched
account `W` (index 1) gains 2000 lamports and account `A` (index 0) is
the first account whose balance dropped, so the analyzer resolves the
counterparty to `"A"`. -/
theorem counterparty_first_match_witness :
    analyzeSolTransaction cfg0 txW "W" = some trW ∧
    trW.receiver_sender = some "A" := by
  refine ⟨by decide, ?_⟩
  have h := (counterparty_first_match cfg0 txW "W" 1 trW (by decide) (by decide)).1
    0 (by decide) (by decide) (by decide) (by decide)
    (fun j hj _ => absurd hj (Nat.not_lt_zero j))
  exact h

end ArbitkaWalletTracker
